import Mathlib

/-!
Verification of the choimemo note-taking client's core session engine.

The definitions below are a shallow embedding of the TypeScript hooks that
implement the core:

* `deleteMemoByIndex` / `createNewMemo` — `src/hooks/useMemoOperations.ts`
* `goToPrevious` / `goToNext`          — `src/hooks/useSwipeNavigation.ts`
* `handleMemoChange` and the debounce  — `src/hooks/useMemoEditing.ts`
* `loadMemos` (bootstrap)              — `src/hooks/useMemoData.ts`
* `runTeardown` (account deletion)     — `src/hooks/useDeleteAccount.ts`

Remote Firestore / Firebase-Auth calls are modelled by their observable
trace (`RemoteCall`) together with injected success/failure outcomes, and
`await`-suspension is resolved to the sequential completed-operation order
the hooks produce on the single-threaded event loop.
-/

namespace Choimemo

/-- A note record as held in the client's local state: `id` assigned by the
repository, user-editable `content`, and the two timestamps
(`created_at` / `updated_at` in the source).  Timestamps are modelled as
abstract `Nat` instants. -/
structure Memo where
  id : Nat
  content : String
  createdAt : Nat
  updatedAt : Nat
deriving DecidableEq, Repr

/-- A blank memo as synthesized by `createMemo(userId, { content: '' })`
followed by the local `{ id, content: '', created_at: new Date(), updated_at: new Date() }`. -/
def blankMemo (id now : Nat) : Memo :=
  { id := id, content := "", createdAt := now, updatedAt := now }

/-- Observable calls against the remote repository / identity provider. -/
inductive RemoteCall where
  | createNote (content : String)
  | deleteNote (id : Nat)
  | updateNote (id : Nat) (content : String)
  | listNotes
  | deleteIdentity
deriving DecidableEq, Repr

/-- The note-session store state: the ordered memo list and the active
index (`memos` / `currentIndex` in `MemoPage.tsx`). -/
structure SessionState where
  memos : List Memo
  currentIndex : Nat
deriving DecidableEq, Repr

/-- Embedding of `deleteMemoByIndex` from `useMemoOperations.ts`.

`isOperating` is the in-flight guard read at entry; `deleteOk` / `createOk`
inject the outcomes of the awaited `deleteMemo` / `createMemo` repository
calls; `newMemoId` is the repository-assigned id of the replacement blank
memo and `now` the current instant.  The result is the session state after
the call completes, the returned boolean, and the trace of remote calls
issued.  `memos.filter((_, i) => i !== index)` removes exactly the element
at position `index`, i.e. `List.eraseIdx`. -/
def deleteMemoByIndex (isOperating : Bool) (s : SessionState) (index : Nat)
    (deleteOk createOk : Bool) (newMemoId now : Nat) :
    SessionState × Bool × List RemoteCall :=
  if isOperating then (s, false, [])
  else
    match s.memos[index]? with
    | none => (s, false, [])
    | some memoToDelete =>
      if deleteOk then
        let newMemos := s.memos.eraseIdx index
        if newMemos.length = 0 then
          if createOk then
            ({ memos := [blankMemo newMemoId now], currentIndex := 0 }, true,
              [RemoteCall.deleteNote memoToDelete.id, RemoteCall.createNote ""])
          else
            (s, false,
              [RemoteCall.deleteNote memoToDelete.id, RemoteCall.createNote ""])
        else
          ({ memos := newMemos, currentIndex := 0 }, true,
            [RemoteCall.deleteNote memoToDelete.id])
      else
        (s, false, [RemoteCall.deleteNote memoToDelete.id])

/-- Embedding of `createNewMemo` from `useMemoOperations.ts`: prepend a
fresh blank memo and show it, guarded by `isOperating`. -/
def createNewMemo (isOperating : Bool) (s : SessionState)
    (createOk : Bool) (newMemoId now : Nat) :
    SessionState × Bool × List RemoteCall :=
  if isOperating then (s, false, [])
  else if createOk then
    ({ memos := blankMemo newMemoId now :: s.memos, currentIndex := 0 }, true,
      [RemoteCall.createNote ""])
  else
    (s, false, [RemoteCall.createNote ""])

/-- Embedding of `goToPrevious` from `useSwipeNavigation.ts` with
`onIndexChange` wired to `setCurrentIndex` as in `MemoPage.tsx`. -/
def goToPrevious (disabled : Bool) (s : SessionState) : SessionState :=
  if disabled then s
  else if s.currentIndex > 0 then
    { s with currentIndex := s.currentIndex - 1 }
  else s

/-- Embedding of `goToNext` from `useSwipeNavigation.ts`; `totalCount` is
`memos.length`.  The JS guard `currentIndex < totalCount - 1` agrees with
truncated `Nat` subtraction: for `totalCount = 0` both reject every index. -/
def goToNext (disabled : Bool) (s : SessionState) : SessionState :=
  if disabled then s
  else if s.currentIndex < s.memos.length - 1 then
    { s with currentIndex := s.currentIndex + 1 }
  else s

/-- One completed user-level operation on the session store, carrying the
environment of its run (remote outcomes, fresh id, instant, disabled flag). -/
inductive SessionOp where
  | create (createOk : Bool) (newMemoId now : Nat)
  | delete (index : Nat) (deleteOk createOk : Bool) (newMemoId now : Nat)
  | navPrev (disabled : Bool)
  | navNext (disabled : Bool)
deriving DecidableEq, Repr

/-- Apply one completed operation (the in-flight guard is `false` at the
start of a completed operation and is released again by `finally`). -/
def applySessionOp (s : SessionState) : SessionOp → SessionState
  | SessionOp.create ok id now => (createNewMemo false s ok id now).1
  | SessionOp.delete i dok cok id now => (deleteMemoByIndex false s i dok cok id now).1
  | SessionOp.navPrev d => goToPrevious d s
  | SessionOp.navNext d => goToNext d s

/-- The store invariant: non-empty list, active index in range. -/
def SessionInvariant (s : SessionState) : Prop :=
  1 ≤ s.memos.length ∧ s.currentIndex < s.memos.length

instance : DecidablePred SessionInvariant := fun s =>
  inferInstanceAs (Decidable (1 ≤ s.memos.length ∧ s.currentIndex < s.memos.length))

/-- JavaScript's `String.prototype.trim()`: drop leading and trailing
whitespace characters (modelled over the ASCII whitespace class). -/
def jsTrim (s : String) : String :=
  String.mk (((s.data.dropWhile Char.isWhitespace).reverse.dropWhile
    Char.isWhitespace).reverse)

/-- Embedding of the bootstrap `loadMemos` inside `useMemoData.ts` (the
success path: no repository call throws).  Returns the resulting memo list
and the trace of repository calls made beyond the initial fetch.  The
newest-note blankness test is `latestMemo.content.trim() !== ''`. -/
def loadMemos (fetched : List Memo) (newMemoId now : Nat) :
    List Memo × List RemoteCall :=
  match fetched with
  | [] => ([blankMemo newMemoId now], [RemoteCall.createNote ""])
  | latestMemo :: _ =>
    if jsTrim latestMemo.content ≠ "" then
      (blankMemo newMemoId now :: fetched, [RemoteCall.createNote ""])
    else
      (fetched, [])

/-- The single scheduled debounced write (`debounceTimerRef` plus the
values captured by the `setTimeout` closure in `useMemoEditing.ts`): the
target note's id and the content, both captured at schedule time. -/
structure PendingWrite where
  noteId : Nat
  content : String
deriving DecidableEq, Repr

/-- Editor-session state for the debounced persistence writer: the memo
list, the active index, and the at-most-one pending scheduled write. -/
structure EditorState where
  memos : List Memo
  currentIndex : Nat
  pending : Option PendingWrite
deriving DecidableEq, Repr

/-- Embedding of `handleMemoChange` from `useMemoEditing.ts`: guard on
`userId`, guard on `memos[currentIndex]`, synchronously rewrite the active
memo's content and `updated_at`
(`prevMemos.map((memo, index) => index === currentIndex ? ... : memo)`),
cancel any previously scheduled timer, and schedule a write that captures
`currentMemo.id` and `newContent`. -/
def handleMemoChange (userId : Option String) (now : Nat)
    (s : EditorState) (newContent : String) : EditorState :=
  match userId with
  | none => s
  | some _ =>
    match s.memos[s.currentIndex]? with
    | none => s
    | some currentMemo =>
      { memos := s.memos.mapIdx fun index memo =>
          if index = s.currentIndex then
            { memo with content := newContent, updatedAt := now }
          else memo,
        currentIndex := s.currentIndex,
        pending := some { noteId := currentMemo.id, content := newContent } }

/-- The debounce timer elapsing: if a write is pending, issue exactly one
`updateMemo(userId, capturedId, capturedContent)` call and clear it. -/
def fireDebounce (s : EditorState) : EditorState × List RemoteCall :=
  match s.pending with
  | none => (s, [])
  | some pw =>
    ({ s with pending := none }, [RemoteCall.updateNote pw.noteId pw.content])

/-- Events of an editing session: a keystroke commit (`onEdit`), an active
note switch (`setCurrentIndex` via navigation or the list view — which does
not touch the timer), and the quiet window elapsing. -/
inductive EditorEvent where
  | edit (content : String) (now : Nat)
  | navigate (newIndex : Nat)
  | fire
deriving DecidableEq, Repr

/-- One event step, returning the new state and the remote calls issued. -/
def editorStep (userId : Option String) (s : EditorState) :
    EditorEvent → EditorState × List RemoteCall
  | EditorEvent.edit c now => (handleMemoChange userId now s c, [])
  | EditorEvent.navigate i => ({ s with currentIndex := i }, [])
  | EditorEvent.fire => fireDebounce s

/-- Run a sequence of editor events, concatenating the remote-call traces. -/
def editorRun (userId : Option String) (s : EditorState) :
    List EditorEvent → EditorState × List RemoteCall
  | [] => (s, [])
  | e :: es =>
    let r1 := editorStep userId s e
    let r2 := editorRun userId r1.1 es
    (r2.1, r1.2 ++ r2.2)

/-- `Math.round(((i + 1) / allMemos.length) * 70)` from
`useDeleteAccount.ts`, for `k = i + 1` deletions out of `n`:
round-half-up of the rational `70 * k / n`, i.e. `⌊(140 * k + n) / (2 * n)⌋`. -/
def jsRound70 (k n : Nat) : Nat :=
  (140 * k + n) / (2 * n)

/-- The `deleteProgress` percentages emitted by a `handleDeleteAccount`
run over `n` memos that completes without error: 0 on entry, 10 before the
fetch, `10 + round(70 * (i+1) / n)` after each deletion, then 90 and 100. -/
def teardownProgressValues (n : Nat) : List Nat :=
  0 :: 10 :: ((List.range n).map fun i => 10 + jsRound70 (i + 1) n) ++ [90, 100]

/-- The user-facing alert text chosen by the `catch` block of
`handleDeleteAccount` for a failure with the given `error.code`. -/
def teardownAlert (code : String) : String :=
  if code = "auth/requires-recent-login" then
    "セキュリティのため、アカウント削除には再ログインが必要です。\n\n一度ログアウトして、再度ログインしてから削除してください。"
  else
    "アカウント削除に失敗しました。もう一度お試しください。"

/-- The re-authentication-specific alert text. -/
def reauthAlertMessage : String :=
  teardownAlert "auth/requires-recent-login"

/-- The generic failure alert text. -/
def genericAlertMessage : String :=
  teardownAlert ""

/-- Which awaited step of the teardown saga rejects, if any.
`onDeleteMemo i` rejects the deletion of the `i`-th memo (0-based) when
`i < n`; for `i ≥ n` that call never happens and the run succeeds. -/
inductive TeardownFailure where
  | noFail
  | onGetMemos (code : String)
  | onDeleteMemo (i : Nat) (code : String)
  | onDeleteUser (code : String)
deriving DecidableEq, Repr

/-- The observable outcome of a `handleDeleteAccount` run: the successive
values passed to `setDeleteProgress` (with `none` for `null`), the final
`deleteProgress` signal, the final status message, and the alert raised by
the `catch` block, if any. -/
structure TeardownResult where
  progressTrace : List (Option Nat)
  finalProgress : Option Nat
  finalMessage : String
  alertMessage : Option String
deriving DecidableEq, Repr

/-- The `some`-progress prefix emitted while the first `upto` memo
deletions (out of `n`) complete. -/
def deleteLoopProgress (n upto : Nat) : List (Option Nat) :=
  (List.range upto).map fun i => some (10 + jsRound70 (i + 1) n)

/-- Embedding of one confirmed `handleDeleteAccount` run over `n` memos
with failure injection `f`: the code sets progress 0 and 10, awaits
`getMemos`, deletes the memos one by one updating progress after each
success, sets 90, awaits `deleteUser`, sets 100; any rejection jumps to
the `catch` block, which resets progress to `null`, clears the message and
alerts according to `error.code`. -/
def runTeardown (n : Nat) : TeardownFailure → TeardownResult
  | TeardownFailure.noFail =>
    { progressTrace := (teardownProgressValues n).map some,
      finalProgress := some 100,
      finalMessage := "削除が完了しました",
      alertMessage := none }
  | TeardownFailure.onGetMemos code =>
    { progressTrace := [some 0, some 10, none],
      finalProgress := none, finalMessage := "",
      alertMessage := some (teardownAlert code) }
  | TeardownFailure.onDeleteMemo i code =>
    if i < n then
      { progressTrace := some 0 :: some 10 :: deleteLoopProgress n i ++ [none],
        finalProgress := none, finalMessage := "",
        alertMessage := some (teardownAlert code) }
    else
      { progressTrace := (teardownProgressValues n).map some,
        finalProgress := some 100,
        finalMessage := "削除が完了しました",
        alertMessage := none }
  | TeardownFailure.onDeleteUser code =>
    { progressTrace := some 0 :: some 10 :: deleteLoopProgress n n ++ [some 90, none],
      finalProgress := none, finalMessage := "",
      alertMessage := some (teardownAlert code) }

/-- C9: While one create or delete operation is in flight
(`isOperating = true`), a second create or delete request returns `false`,
issues no remote call, and leaves the memo list and active index unchanged. -/
theorem inflight_guard_rejects_second_op (s : SessionState) (index : Nat)
    (dok cok cok2 : Bool) (newMemoId now newMemoId2 now2 : Nat) :
    deleteMemoByIndex true s index dok cok newMemoId now = (s, false, []) ∧
    createNewMemo true s cok2 newMemoId2 now2 = (s, false, []) := by
  constructor <;> simp [deleteMemoByIndex, createNewMemo]

/-- C3: Whenever `deleteMemoByIndex` completes successfully the active
index is reset to 0, whatever the deleted index and the previous active
index were; and deleting out of a one-memo list leaves exactly one fresh
blank memo at index 0. -/
theorem delete_resets_active_index (isOp : Bool) (s : SessionState)
    (index : Nat) (dok cok : Bool) (newMemoId now : Nat) :
    ((deleteMemoByIndex isOp s index dok cok newMemoId now).2.1 = true →
      (deleteMemoByIndex isOp s index dok cok newMemoId now).1.currentIndex = 0) ∧
    (s.memos.length = 1 →
      (deleteMemoByIndex isOp s index dok cok newMemoId now).2.1 = true →
      (deleteMemoByIndex isOp s index dok cok newMemoId now).1.memos =
        [blankMemo newMemoId now]) := by
  cases isOp with
  | true => simp [deleteMemoByIndex]
  | false =>
    cases hget : s.memos[index]? with
    | none => simp [deleteMemoByIndex, hget]
    | some memoToDelete =>
      cases dok with
      | false => simp [deleteMemoByIndex, hget]
      | true =>
        have hlt : index < s.memos.length := by
          have := List.getElem?_eq_some_iff.mp hget
          exact this.1
        have herase : (s.memos.eraseIdx index).length = s.memos.length - 1 := by
          rw [List.length_eraseIdx]
          simp [hlt]
        by_cases hlen : (s.memos.eraseIdx index).length = 0
        · cases cok with
          | false => simp [deleteMemoByIndex, hget, hlen]
          | true => simp [deleteMemoByIndex, hget, hlen]
        · have hone : s.memos.length = 1 → False := by
            intro h1
            apply hlen
            omega
          simp only [deleteMemoByIndex, hget, if_neg hlen]
          constructor
          · intro _
            simp
          · intro h1
            exact absurd h1 (fun h => hone h)

/-- Witness for `delete_resets_active_index`: deleting the only memo of a
one-memo list yields a single fresh blank memo at active index 0. -/
theorem delete_resets_active_index_witness :
    (deleteMemoByIndex false { memos := [blankMemo 5 0], currentIndex := 0 }
      0 true true 7 3).1.currentIndex = 0 ∧
    (deleteMemoByIndex false { memos := [blankMemo 5 0], currentIndex := 0 }
      0 true true 7 3).1.memos = [blankMemo 7 3] :=
  ⟨(delete_resets_active_index false { memos := [blankMemo 5 0], currentIndex := 0 }
      0 true true 7 3).1 (by decide),
   (delete_resets_active_index false { memos := [blankMemo 5 0], currentIndex := 0 }
      0 true true 7 3).2 (by decide) (by decide)⟩

theorem applySessionOp_invariant (s : SessionState) (op : SessionOp)
    (h : SessionInvariant s) : SessionInvariant (applySessionOp s op) := by
  obtain ⟨h1, h2⟩ := h
  cases op with
  | create ok id now =>
    cases ok with
    | false => exact ⟨h1, h2⟩
    | true =>
      refine ⟨?_, ?_⟩
      · show 1 ≤ (blankMemo id now :: s.memos).length
        exact Nat.succ_le_succ (Nat.zero_le _)
      · show 0 < (blankMemo id now :: s.memos).length
        exact Nat.succ_pos _
  | delete i dok cok id now =>
    cases hget : s.memos[i]? with
    | none =>
      simp only [applySessionOp, deleteMemoByIndex, hget]
      exact ⟨h1, h2⟩
    | some memoToDelete =>
      cases dok with
      | false =>
        simp only [applySessionOp, deleteMemoByIndex, hget]
        exact ⟨h1, h2⟩
      | true =>
        by_cases hlen : (s.memos.eraseIdx i).length = 0
        · cases cok with
          | false =>
            simp only [applySessionOp, deleteMemoByIndex, hget, if_pos hlen]
            exact ⟨h1, h2⟩
          | true =>
            simp only [applySessionOp, deleteMemoByIndex, hget, if_pos hlen]
            refine ⟨?_, ?_⟩
            · show 1 ≤ ([blankMemo id now] : List Memo).length
              exact Nat.le_refl 1
            · show 0 < ([blankMemo id now] : List Memo).length
              exact Nat.succ_pos 0
        · simp only [applySessionOp, deleteMemoByIndex, hget, if_neg hlen]
          refine ⟨?_, ?_⟩
          · show 1 ≤ (s.memos.eraseIdx i).length
            exact Nat.pos_of_ne_zero hlen
          · show 0 < (s.memos.eraseIdx i).length
            exact Nat.pos_of_ne_zero hlen
  | navPrev d =>
    cases d with
    | true => exact ⟨h1, h2⟩
    | false =>
      show SessionInvariant
        (if s.currentIndex > 0 then
          { s with currentIndex := s.currentIndex - 1 } else s)
      by_cases hpos : s.currentIndex > 0
      · rw [if_pos hpos]
        refine ⟨h1, ?_⟩
        show s.currentIndex - 1 < s.memos.length
        exact Nat.lt_of_le_of_lt (Nat.sub_le _ _) h2
      · rw [if_neg hpos]
        exact ⟨h1, h2⟩
  | navNext d =>
    cases d with
    | true => exact ⟨h1, h2⟩
    | false =>
      show SessionInvariant
        (if s.currentIndex < s.memos.length - 1 then
          { s with currentIndex := s.currentIndex + 1 } else s)
      by_cases hlt : s.currentIndex < s.memos.length - 1
      · rw [if_pos hlt]
        refine ⟨h1, ?_⟩
        show s.currentIndex + 1 < s.memos.length
        omega
      · rw [if_neg hlt]
        exact ⟨h1, h2⟩

/-- C1: from any bootstrapped state satisfying the store invariant, every
sequence of completed create / delete / navigate operations keeps the memo
list non-empty and the active index strictly below its length.  Since the
theorem applies to every prefix of a sequence, the invariant holds after
each operation completes. -/
theorem session_ops_preserve_invariant (s : SessionState) (ops : List SessionOp)
    (h : SessionInvariant s) :
    SessionInvariant (List.foldl applySessionOp s ops) := by
  induction ops generalizing s with
  | nil => exact h
  | cons op rest ih =>
    exact ih (applySessionOp s op) (applySessionOp_invariant s op h)

/-- Witness for `session_ops_preserve_invariant`: a concrete run of a
create, two deletes, and boundary navigation from a fresh bootstrap. -/
theorem session_ops_preserve_invariant_witness :
    SessionInvariant (List.foldl applySessionOp
      { memos := [blankMemo 0 0], currentIndex := 0 }
      [SessionOp.create true 1 1, SessionOp.navNext false,
       SessionOp.delete 1 true true 2 2, SessionOp.delete 0 true true 3 3,
       SessionOp.navPrev false]) :=
  session_ops_preserve_invariant
    { memos := [blankMemo 0 0], currentIndex := 0 } _ (by decide)

theorem jsTrim_empty : jsTrim "" = "" := rfl

/-- C4: the bootstrap policy — an empty fetch yields exactly one created
blank memo as the sole entry; a blank newest memo yields the fetched list
as-is with no create call; a non-blank newest memo yields exactly one
create call with the blank memo placed ahead of the fetched list; and
bootstrapping the result of a bootstrap issues no further create call. -/
theorem bootstrap_policy (latest : Memo) (rest fetched : List Memo)
    (id1 id2 now1 now2 : Nat) :
    loadMemos [] id1 now1 = ([blankMemo id1 now1], [RemoteCall.createNote ""]) ∧
    (jsTrim latest.content = "" →
      loadMemos (latest :: rest) id1 now1 = (latest :: rest, [])) ∧
    (jsTrim latest.content ≠ "" →
      loadMemos (latest :: rest) id1 now1 =
        (blankMemo id1 now1 :: latest :: rest, [RemoteCall.createNote ""])) ∧
    loadMemos (loadMemos fetched id1 now1).1 id2 now2 =
      ((loadMemos fetched id1 now1).1, []) := by
  refine ⟨rfl, ?_, ?_, ?_⟩
  · intro hblank
    simp [loadMemos, hblank]
  · intro hnonblank
    simp [loadMemos, hnonblank]
  · cases fetched with
    | nil =>
      simp [loadMemos, blankMemo, jsTrim_empty]
    | cons latest1 rest1 =>
      by_cases hb : jsTrim latest1.content = ""
      · simp [loadMemos, hb]
      · simp [loadMemos, hb, blankMemo, jsTrim_empty]

/-- Witness for `bootstrap_policy`: a fetch whose newest memo is blank is
kept as-is, and a fetch whose newest memo is non-blank gets one blank memo
prepended; re-bootstrapping is silent. -/
theorem bootstrap_policy_witness :
    loadMemos [] 4 9 = ([blankMemo 4 9], [RemoteCall.createNote ""]) ∧
    loadMemos [blankMemo 1 0, { id := 2, content := "hi", createdAt := 0, updatedAt := 0 }] 4 9 =
      ([blankMemo 1 0, { id := 2, content := "hi", createdAt := 0, updatedAt := 0 }], []) ∧
    loadMemos [{ id := 2, content := "hi", createdAt := 0, updatedAt := 0 }] 4 9 =
      ([blankMemo 4 9, { id := 2, content := "hi", createdAt := 0, updatedAt := 0 }],
        [RemoteCall.createNote ""]) ∧
    loadMemos (loadMemos [{ id := 2, content := "hi", createdAt := 0, updatedAt := 0 }] 4 9).1 5 11 =
      ((loadMemos [{ id := 2, content := "hi", createdAt := 0, updatedAt := 0 }] 4 9).1, []) :=
  ⟨(bootstrap_policy (blankMemo 1 0) [] [] 4 5 9 11).1,
   (bootstrap_policy (blankMemo 1 0)
      [{ id := 2, content := "hi", createdAt := 0, updatedAt := 0 }] [] 4 5 9 11).2.1 (by decide),
   (bootstrap_policy { id := 2, content := "hi", createdAt := 0, updatedAt := 0 }
      [] [] 4 5 9 11).2.2.1 (by decide),
   (bootstrap_policy (blankMemo 1 0) []
      [{ id := 2, content := "hi", createdAt := 0, updatedAt := 0 }] 4 5 9 11).2.2.2⟩

/-- C10: at bootstrap a newest memo whose content is non-empty but
whitespace-only fails the `content.trim() !== ''` test, so it is treated
as blank: no create call is issued and the fetched list is used as-is. -/
theorem bootstrap_whitespace_only_newest_is_blank (latest : Memo)
    (rest : List Memo) (newMemoId now : Nat)
    (_hne : latest.content ≠ "") (hws : jsTrim latest.content = "") :
    loadMemos (latest :: rest) newMemoId now = (latest :: rest, []) := by
  simp [loadMemos, hws]

/-- Witness for `bootstrap_whitespace_only_newest_is_blank`: a newest memo
holding three spaces is kept, with no create call. -/
theorem bootstrap_whitespace_only_newest_is_blank_witness :
    loadMemos [{ id := 3, content := "   ", createdAt := 2, updatedAt := 2 }] 8 5 =
      ([{ id := 3, content := "   ", createdAt := 2, updatedAt := 2 }], []) :=
  bootstrap_whitespace_only_newest_is_blank
    { id := 3, content := "   ", createdAt := 2, updatedAt := 2 } [] 8 5
    (by decide) (by decide)

/-- C5 counterexample: for zero notes the deletion loop is skipped, so the
progress values of a successful teardown run are 0, 10, 90, 100 — in
particular 80 is never emitted, refuting the claim that the progress
sequence reaches 80 before 90 when N = 0. -/
theorem teardown_zero_notes_skips_eighty :
    teardownProgressValues 0 = [0, 10, 90, 100] ∧
    (80 : Nat) ∉ teardownProgressValues 0 := by
  decide

/-- C5 (amended): for a teardown run over zero notes the note-deletion
phase is a no-op and the run emits the progress values 0, 10, 90, 100:
progress jumps from 10% straight to 90%, and 80% never appears. -/
theorem teardown_zero_notes_progress :
    (runTeardown 0 TeardownFailure.noFail).progressTrace =
      [some 0, some 10, some 90, some 100] := by
  decide

theorem jsRound70_mono (n k k' : Nat) (h : k ≤ k') :
    jsRound70 k n ≤ jsRound70 k' n :=
  Nat.div_le_div_right (by omega)

theorem jsRound70_le_seventy (k n : Nat) (h : k ≤ n) : jsRound70 k n ≤ 70 := by
  cases n with
  | zero =>
    simp [jsRound70]
  | succ m =>
    have h141 : jsRound70 (m + 1) (m + 1) = 70 := by
      show (140 * (m + 1) + (m + 1)) / (2 * (m + 1)) = 70
      have hrw : 140 * (m + 1) + (m + 1) = (m + 1) + 2 * (m + 1) * 70 := by ring
      rw [hrw, Nat.add_mul_div_left _ _ (by omega : 0 < 2 * (m + 1)),
        Nat.div_eq_of_lt (by omega)]
    calc jsRound70 k (m + 1) ≤ jsRound70 (m + 1) (m + 1) := jsRound70_mono _ _ _ h
      _ = 70 := h141

/-- C6: for every N ≥ 0 the progress values of a teardown run that
completes without error form a non-decreasing sequence whose final value
is 100. -/
theorem teardown_progress_monotone (n : Nat) :
    List.Sorted (· ≤ ·) (teardownProgressValues n) ∧
    (teardownProgressValues n).getLast? = some 100 := by
  have hmem : ∀ x ∈ (List.range n).map fun i => 10 + jsRound70 (i + 1) n,
      10 ≤ x ∧ x ≤ 80 := by
    intro x hx
    obtain ⟨i, hi, rfl⟩ := List.mem_map.mp hx
    have hin : i < n := List.mem_range.mp hi
    have hle : jsRound70 (i + 1) n ≤ 70 := jsRound70_le_seventy _ _ (by omega)
    omega
  have hbody : List.Pairwise (· ≤ ·)
      ((List.range n).map fun i => 10 + jsRound70 (i + 1) n) := by
    rw [List.pairwise_map]
    refine (List.pairwise_lt_range n).imp ?_
    intro a b hab
    have := jsRound70_mono n (a + 1) (b + 1) (by omega)
    omega
  have hcross : ∀ a ∈ (List.range n).map fun i => 10 + jsRound70 (i + 1) n,
      ∀ b ∈ ([90, 100] : List Nat), a ≤ b := by
    intro a ha b hb
    have h80 := (hmem a ha).2
    simp only [List.mem_cons, List.mem_singleton] at hb
    rcases hb with rfl | hb
    · omega
    · rcases hb with rfl | hb
      · omega
      · cases hb
  have htail : List.Pairwise (· ≤ ·)
      (((List.range n).map fun i => 10 + jsRound70 (i + 1) n) ++ [90, 100]) :=
    List.pairwise_append.mpr ⟨hbody, by decide, hcross⟩
  have h10 : ∀ b ∈ ((List.range n).map fun i => 10 + jsRound70 (i + 1) n) ++ [90, 100],
      10 ≤ b := by
    intro b hb
    rcases List.mem_append.mp hb with hb | hb
    · exact (hmem b hb).1
    · simp only [List.mem_cons, List.mem_singleton] at hb
      rcases hb with rfl | hb
      · omega
      · rcases hb with rfl | hb
        · omega
        · cases hb
  constructor
  · show List.Pairwise (· ≤ ·)
      (0 :: 10 :: ((List.range n).map fun i => 10 + jsRound70 (i + 1) n) ++ [90, 100])
    exact List.pairwise_cons.mpr ⟨fun b _ => Nat.zero_le b,
      List.pairwise_cons.mpr ⟨h10, htail⟩⟩
  · have hsplit : teardownProgressValues n =
        (0 :: 10 :: (List.range n).map fun i => 10 + jsRound70 (i + 1) n) ++ [90, 100] := by
      simp [teardownProgressValues]
    rw [hsplit, List.getLast?_append]
    rfl

/-- C7: whichever step of the teardown saga fails, the `catch` block
resets the progress signal to `null` (never stuck mid-percentage), and an
identity-deletion failure with the stale-session code
`auth/requires-recent-login` surfaces the re-authentication-specific
alert, which differs from the generic failure alert. -/
theorem teardown_failure_clears_progress (n i : Nat) (code : String)
    (hi : i < n) :
    (runTeardown n (TeardownFailure.onGetMemos code)).finalProgress = none ∧
    (runTeardown n (TeardownFailure.onDeleteMemo i code)).finalProgress = none ∧
    (runTeardown n (TeardownFailure.onDeleteUser code)).finalProgress = none ∧
    (runTeardown n (TeardownFailure.onDeleteUser
      "auth/requires-recent-login")).alertMessage = some reauthAlertMessage ∧
    (code ≠ "auth/requires-recent-login" →
      (runTeardown n (TeardownFailure.onDeleteUser code)).alertMessage =
        some genericAlertMessage) ∧
    reauthAlertMessage ≠ genericAlertMessage := by
  refine ⟨rfl, ?_, rfl, rfl, ?_, ?_⟩
  · simp [runTeardown, hi]
  · intro hcode
    show some (teardownAlert code) = some genericAlertMessage
    rw [teardownAlert, if_neg hcode]
    rfl
  · decide

/-- Witness for `teardown_failure_clears_progress`: a run over two notes
whose second note-deletion fails with a generic code clears the overlay
signal and raises the generic alert; a stale-session identity-deletion
failure raises the distinct re-authentication alert. -/
theorem teardown_failure_clears_progress_witness :
    (runTeardown 2 (TeardownFailure.onDeleteMemo 1 "boom")).finalProgress = none ∧
    (runTeardown 2 (TeardownFailure.onDeleteUser
      "auth/requires-recent-login")).alertMessage = some reauthAlertMessage ∧
    (runTeardown 2 (TeardownFailure.onDeleteUser "boom")).alertMessage =
      some genericAlertMessage ∧
    reauthAlertMessage ≠ genericAlertMessage :=
  ⟨(teardown_failure_clears_progress 2 1 "boom" (by decide)).2.1,
   (teardown_failure_clears_progress 2 1 "boom" (by decide)).2.2.2.1,
   (teardown_failure_clears_progress 2 1 "boom" (by decide)).2.2.2.2.1 (by decide),
   (teardown_failure_clears_progress 2 1 "boom" (by decide)).2.2.2.2.2⟩

theorem handleMemoChange_pending (u : String) (t : Nat) (s : EditorState)
    (c : String) (m : Memo) (hm : s.memos[s.currentIndex]? = some m) :
    (handleMemoChange (some u) t s c).pending =
      some { noteId := m.id, content := c } := by
  simp [handleMemoChange, hm]

theorem handleMemoChange_currentIndex (u : String) (t : Nat) (s : EditorState)
    (c : String) (m : Memo) (hm : s.memos[s.currentIndex]? = some m) :
    (handleMemoChange (some u) t s c).currentIndex = s.currentIndex := by
  simp [handleMemoChange, hm]

theorem handleMemoChange_active (u : String) (t : Nat) (s : EditorState)
    (c : String) (m : Memo) (hm : s.memos[s.currentIndex]? = some m) :
    (handleMemoChange (some u) t s c).memos[s.currentIndex]? =
      some { m with content := c, updatedAt := t } := by
  simp [handleMemoChange, hm, List.getElem?_mapIdx]

theorem handleMemoChange_other (u : String) (t : Nat) (s : EditorState)
    (c : String) (i : Nat) (hi : i ≠ s.currentIndex) :
    (handleMemoChange (some u) t s c).memos[i]? = s.memos[i]? := by
  cases hm : s.memos[s.currentIndex]? with
  | none => simp [handleMemoChange, hm]
  | some m =>
    simp [handleMemoChange, hm, List.getElem?_mapIdx, hi]

/-- C2: a burst of edits to the active note all inside the quiet window —
each cancelling the previous scheduled write — followed by the window
elapsing issues exactly one remote update call, and its payload is the
content of the last edit, against the active note's id. -/
theorem debounce_coalesces_burst (u : String) (t : Nat) :
    ∀ (cs : List String) (s : EditorState) (m : Memo) (clast : String),
      s.memos[s.currentIndex]? = some m →
      cs.getLast? = some clast →
      (editorRun (some u) s
        ((cs.map fun c => EditorEvent.edit c t) ++ [EditorEvent.fire])).2 =
        [RemoteCall.updateNote m.id clast] := by
  intro cs
  induction cs with
  | nil =>
    intro s m clast hm hlast
    exact absurd hlast (by simp)
  | cons c cs ih =>
    intro s m clast hm hlast
    cases cs with
    | nil =>
      have hc : clast = c := by
        simpa using hlast.symm
      subst hc
      have hp := handleMemoChange_pending u t s clast m hm
      simp [editorRun, editorStep, fireDebounce, hp]
    | cons c2 cs2 =>
      have hstep := handleMemoChange_active u t s c m hm
      have hidx := handleMemoChange_currentIndex u t s c m hm
      have hm1 : (handleMemoChange (some u) t s c).memos[
          (handleMemoChange (some u) t s c).currentIndex]? =
          some { m with content := c, updatedAt := t } := by
        rw [hidx]
        exact hstep
      have hlast1 : (c2 :: cs2).getLast? = some clast := by
        rwa [List.getLast?_cons_cons] at hlast
      have := ih (handleMemoChange (some u) t s c)
        { m with content := c, updatedAt := t } clast hm1 hlast1
      simpa [editorRun, editorStep] using this

/-- Witness for `debounce_coalesces_burst`: the burst "a", "ab", "abc"
against a one-memo session produces the single call
`updateMemo(note 6, "abc")`. -/
theorem debounce_coalesces_burst_witness :
    (editorRun (some "user") { memos := [blankMemo 6 0], currentIndex := 0, pending := none }
      ((["a", "ab", "abc"].map fun c => EditorEvent.edit c 1) ++ [EditorEvent.fire])).2 =
      [RemoteCall.updateNote 6 "abc"] :=
  debounce_coalesces_burst "user" 1 ["a", "ab", "abc"]
    { memos := [blankMemo 6 0], currentIndex := 0, pending := none }
    (blankMemo 6 0) "abc" (by decide) (by decide)

/-- C8: editing note A and then switching the active note before the quiet
window elapses leaves the pending write targeting A's id (captured at
schedule time) with A's pending content; the memo at the newly active
index is untouched by the write. -/
theorem pending_write_targets_scheduled_note (u : String) (s : EditorState)
    (m : Memo) (cA : String) (t iB : Nat)
    (hm : s.memos[s.currentIndex]? = some m) :
    (editorRun (some u) s
      [EditorEvent.edit cA t, EditorEvent.navigate iB, EditorEvent.fire]).2 =
      [RemoteCall.updateNote m.id cA] ∧
    (iB ≠ s.currentIndex →
      (editorRun (some u) s
        [EditorEvent.edit cA t, EditorEvent.navigate iB, EditorEvent.fire]).1.memos[iB]? =
        s.memos[iB]?) := by
  have hp := handleMemoChange_pending u t s cA m hm
  constructor
  · simp [editorRun, editorStep, fireDebounce, hp]
  · intro hne
    have hother := handleMemoChange_other u t s cA iB hne
    simp [editorRun, editorStep, fireDebounce, hp, hother]

/-- Witness for `pending_write_targets_scheduled_note`: editing note A
(id 1) then switching to note B (index 1, id 2) before the window elapses
still updates note 1 with A's content, and note B keeps its content. -/
theorem pending_write_targets_scheduled_note_witness :
    (editorRun (some "user")
      { memos := [blankMemo 1 0, { id := 2, content := "b", createdAt := 0, updatedAt := 0 }],
        currentIndex := 0, pending := none }
      [EditorEvent.edit "draft" 3, EditorEvent.navigate 1, EditorEvent.fire]).2 =
      [RemoteCall.updateNote 1 "draft"] ∧
    (editorRun (some "user")
      { memos := [blankMemo 1 0, { id := 2, content := "b", createdAt := 0, updatedAt := 0 }],
        currentIndex := 0, pending := none }
      [EditorEvent.edit "draft" 3, EditorEvent.navigate 1, EditorEvent.fire]).1.memos[1]? =
      some { id := 2, content := "b", createdAt := 0, updatedAt := 0 } :=
  ⟨(pending_write_targets_scheduled_note "user"
      { memos := [blankMemo 1 0, { id := 2, content := "b", createdAt := 0, updatedAt := 0 }],
        currentIndex := 0, pending := none }
      (blankMemo 1 0) "draft" 3 1 (by decide)).1,
   ((pending_write_targets_scheduled_note "user"
      { memos := [blankMemo 1 0, { id := 2, content := "b", createdAt := 0, updatedAt := 0 }],
        currentIndex := 0, pending := none }
      (blankMemo 1 0) "draft" 3 1 (by decide)).2 (by decide)).trans (by decide)⟩

end Choimemo
